import Mathlib

/-!
Shallow embedding of the `composer-parser` Rust crate (src/lib.rs):
the data model for `composer outdated` output, the serde-derived JSON
decoders, UTF-8 validation of captured process output, and the control
flow of the `outdated` entry point.
-/

namespace ComposerParser

/-- Caller-supplied options (`ComposerOutdatedOptions` in the source):
a list of package names to be passed as `--ignore` arguments. -/
structure ComposerOutdatedOptions where
  ignored_packages : List String
deriving Repr, DecidableEq

/-- Per-package update classification (`UpdateRequirement` in the source).
Constructor order matches the Rust declaration order, which determines the
derived `Ord`. -/
inductive UpdateRequirement where
  | UpToDate
  | SemverSafeUpdate
  | UpdatePossible
deriving Repr, DecidableEq

/-- Overall outcome derived from the child-process exit status
(`IndicatedUpdateRequirement` in the source). -/
inductive IndicatedUpdateRequirement where
  | UpToDate
  | UpdateRequired
deriving Repr, DecidableEq

/-- One row of the decoded report (`PackageStatus` in the source). The wire
key `latest-status` maps to the `latest_status` field; `warning` is optional. -/
structure PackageStatus where
  name : String
  version : String
  latest : String
  latest_status : UpdateRequirement
  description : String
  warning : Option String
deriving Repr, DecidableEq

/-- Top-level decoded result (`ComposerOutdatedData` in the source). -/
structure ComposerOutdatedData where
  locked : List PackageStatus
deriving Repr, DecidableEq

/-- The crate's error enum. `SerdeJsonError` carries the JSON decode
diagnostic, `Utf8Error` marks invalid UTF-8 in captured output and
`StdIoError` a process-launch failure. -/
inductive Error where
  | SerdeJsonError (msg : String)
  | Utf8Error
  | StdIoError (msg : String)
deriving Repr, DecidableEq

/-- Decidable equality for `Except`, so that concrete runs of the decoders
and of `outdated` can be checked by `decide`. -/
instance {ε α : Type} [DecidableEq ε] [DecidableEq α] : DecidableEq (Except ε α) := fun x y =>
  match x, y with
  | .ok a, .ok b =>
    if h : a = b then isTrue (by rw [h]) else isFalse (by simp [h])
  | .error a, .error b =>
    if h : a = b then isTrue (by rw [h]) else isFalse (by simp [h])
  | .ok _, .error _ => isFalse (by simp)
  | .error _, .ok _ => isFalse (by simp)

/-- The executable name passed to `Command::new`. -/
def composerProgram : String := "composer"

/-- The argument list built in `outdated`: a fixed block passed to
`cmd.args([...])` followed by the loop appending `--ignore <name>` for each
ignored package, modelled as a left fold exactly mirroring the loop. -/
def buildArgs (options : ComposerOutdatedOptions) : List String :=
  options.ignored_packages.foldl (fun acc package_name => acc ++ ["--ignore", package_name])
    ["outdated", "-f", "json", "--no-plugins", "--strict", "--locked", "-m"]

/-- JSON values as produced by `serde_json` from the program's output text.
Object entries are kept in document order; numeric literals keep their
lexeme (their numeric value is never consulted by this crate's schema). -/
inductive Json where
  | jnull
  | jbool (value : Bool)
  | jnum (lexeme : String)
  | jstr (value : String)
  | jarr (items : List Json)
  | jobj (entries : List (String × Json))
deriving Repr

/-- One byte is a UTF-8 continuation byte (`0x80..=0xBF`). -/
def isCont (b : Nat) : Bool := 0x80 ≤ b && b ≤ 0xBF

/-- Assemble the code point of a two-byte UTF-8 sequence. -/
def cp2 (b0 b1 : Nat) : Nat := (b0 - 0xC0) * 0x40 + (b1 - 0x80)

/-- Assemble the code point of a three-byte UTF-8 sequence. -/
def cp3 (b0 b1 b2 : Nat) : Nat :=
  (b0 - 0xE0) * 0x1000 + (b1 - 0x80) * 0x40 + (b2 - 0x80)

/-- Assemble the code point of a four-byte UTF-8 sequence. -/
def cp4 (b0 b1 b2 b3 : Nat) : Nat :=
  (b0 - 0xF0) * 0x40000 + (b1 - 0x80) * 0x1000 + (b2 - 0x80) * 0x40 + (b3 - 0x80)

/-- UTF-8 validation and decoding of a byte sequence, mirroring Rust's
`std::str::from_utf8` (RFC 3629: shortest-form only, surrogates rejected,
nothing above U+10FFFF). Returns the decoded code points or `none` when the
bytes are not valid UTF-8. The fuel argument is instantiated with the length
of the byte list; every step consumes at least one byte. -/
def utf8Chars : Nat → List Nat → Option (List Char)
  | _, [] => some []
  | 0, _ :: _ => none
  | fuel + 1, b0 :: rest =>
    if b0 ≤ 0x7F then
      (utf8Chars fuel rest).map (Char.ofNat b0 :: ·)
    else if 0xC2 ≤ b0 && b0 ≤ 0xDF then
      match rest with
      | b1 :: rest1 =>
        if isCont b1 then (utf8Chars fuel rest1).map (Char.ofNat (cp2 b0 b1) :: ·)
        else none
      | [] => none
    else if 0xE0 ≤ b0 && b0 ≤ 0xEF then
      match rest with
      | b1 :: b2 :: rest2 =>
        let okB1 :=
          if b0 = 0xE0 then 0xA0 ≤ b1 && b1 ≤ 0xBF
          else if b0 = 0xED then 0x80 ≤ b1 && b1 ≤ 0x9F
          else isCont b1
        if okB1 && isCont b2 then
          (utf8Chars fuel rest2).map (Char.ofNat (cp3 b0 b1 b2) :: ·)
        else none
      | _ => none
    else if 0xF0 ≤ b0 && b0 ≤ 0xF4 then
      match rest with
      | b1 :: b2 :: b3 :: rest3 =>
        let okB1 :=
          if b0 = 0xF0 then 0x90 ≤ b1 && b1 ≤ 0xBF
          else if b0 = 0xF4 then 0x80 ≤ b1 && b1 ≤ 0x8F
          else isCont b1
        if okB1 && isCont b2 && isCont b3 then
          (utf8Chars fuel rest3).map (Char.ofNat (cp4 b0 b1 b2 b3) :: ·)
        else none
      | _ => none
    else none

/-- `std::str::from_utf8` on captured output bytes, as a total function to
an optional string. -/
def utf8Decode (bs : List Nat) : Option String :=
  (utf8Chars bs.length bs).map fun cs => ⟨cs⟩

/-- Byte representation of an ASCII string, for concrete test inputs. -/
def asciiBytes (s : String) : List Nat := s.data.map Char.toNat

/-- The opening-brace character, named to keep it out of literals. -/
def lbrace : Char := Char.ofNat 123

/-- The closing-brace character, named to keep it out of literals. -/
def rbrace : Char := Char.ofNat 125

/-- JSON insignificant whitespace (RFC 8259): space, line feed, carriage
return, horizontal tab. -/
def jsonSpace (c : Char) : Bool := c = ' ' || c = '\n' || c = '\r' || c = '\t'

/-- Drop leading JSON whitespace. -/
def dropSpace (cs : List Char) : List Char := cs.dropWhile jsonSpace

/-- ASCII decimal digit test, by code point. -/
def decDigit (c : Char) : Bool := 48 ≤ c.toNat && c.toNat ≤ 57

/-- Value of one hexadecimal digit, if any, by code point. -/
def hexDigit (c : Char) : Option Nat :=
  let n := c.toNat
  if 48 ≤ n && n ≤ 57 then some (n - 48)
  else if 65 ≤ n && n ≤ 70 then some (n - 55)
  else if 97 ≤ n && n ≤ 102 then some (n - 87)
  else none

/-- Consume exactly four hexadecimal digits (the `XXXX` of a `\uXXXX`
escape) and assemble their value. -/
def hexQuad : List Char → Option (Nat × List Char)
  | c1 :: c2 :: c3 :: c4 :: rest =>
    match hexDigit c1, hexDigit c2, hexDigit c3, hexDigit c4 with
    | some h1, some h2, some h3, some h4 =>
      some (h1 * 4096 + h2 * 256 + h3 * 16 + h4, rest)
    | _, _, _, _ => none
  | _ => none

/-- Strip an expected literal character sequence off the input, if present. -/
def stripLit : List Char → List Char → Option (List Char)
  | [], cs => some cs
  | l :: ls, c :: cs => if c = l then stripLit ls cs else none
  | _ :: _, [] => none

/-- Lex the body of a JSON string literal, starting after the opening quote
and consuming the closing quote. Handles the RFC 8259 escapes, including
surrogate-pair `\uXXXX\uYYYY` combination, and rejects unescaped control
characters. Fuel is instantiated with the remaining input length. -/
def lexString : Nat → List Char → Option (String × List Char)
  | 0, _ => none
  | _, [] => none
  | fuel + 1, c :: rest =>
    if c = '"' then some ("", rest)
    else if c = '\\' then
      match rest with
      | [] => none
      | e :: rest1 =>
        let simple : Option Char :=
          if e = '"' then some '"'
          else if e = '\\' then some '\\'
          else if e = '/' then some '/'
          else if e = 'b' then some (Char.ofNat 8)
          else if e = 'f' then some (Char.ofNat 12)
          else if e = 'n' then some '\n'
          else if e = 'r' then some '\r'
          else if e = 't' then some '\t'
          else none
        match simple with
        | some ch => (lexString fuel rest1).map fun p => (⟨ch :: p.1.data⟩, p.2)
        | none =>
          if e = 'u' then
            match hexQuad rest1 with
            | none => none
            | some (n, rest2) =>
              if n < 0xD800 || 0xE000 ≤ n then
                (lexString fuel rest2).map fun p => (⟨Char.ofNat n :: p.1.data⟩, p.2)
              else if n ≤ 0xDBFF then
                match stripLit ['\\', 'u'] rest2 with
                | none => none
                | some rest3 =>
                  match hexQuad rest3 with
                  | some (n2, rest4) =>
                    if 0xDC00 ≤ n2 && n2 ≤ 0xDFFF then
                      let cp := 0x10000 + (n - 0xD800) * 0x400 + (n2 - 0xDC00)
                      (lexString fuel rest4).map fun p => (⟨Char.ofNat cp :: p.1.data⟩, p.2)
                    else none
                  | none => none
              else none
          else none
    else if c.toNat < 0x20 then none
    else (lexString fuel rest).map fun p => (⟨c :: p.1.data⟩, p.2)

/-- Split off a maximal run of decimal digits. -/
def decSpan (cs : List Char) : List Char × List Char :=
  (cs.takeWhile decDigit, cs.dropWhile decDigit)

/-- Lex an optional fraction part (`.` followed by one or more digits). -/
def lexFrac (cs : List Char) : Option (List Char × List Char) :=
  match cs with
  | '.' :: r =>
    let (ds, r2) := decSpan r
    if ds.isEmpty then none else some ('.' :: ds, r2)
  | _ => some ([], cs)

/-- Lex an optional exponent part (`e`/`E`, optional sign, digits). -/
def lexExp (cs : List Char) : Option (List Char × List Char) :=
  match cs with
  | c :: r =>
    if c = 'e' || c = 'E' then
      let (sign, r1) :=
        match r with
        | s :: r2 => if s = '+' || s = '-' then ([s], r2) else (([] : List Char), r)
        | [] => ([], r)
      let (ds, r2) := decSpan r1
      if ds.isEmpty then none else some (c :: (sign ++ ds), r2)
    else some ([], cs)
  | [] => some ([], cs)

/-- Lex a JSON number starting at its first character, keeping the lexeme
(leading zeros rejected per RFC 8259). -/
def lexNumber (cs : List Char) : Option (String × List Char) := do
  let (neg, cs1) :=
    match cs with
    | '-' :: r => ((['-'] : List Char), r)
    | _ => ([], cs)
  let (ip, cs2) ←
    match cs1 with
    | '0' :: d :: r => if decDigit d then none else some ((['0'] : List Char), d :: r)
    | ['0'] => some (['0'], [])
    | c :: _ => if decDigit c then some (decSpan cs1) else none
    | [] => none
  let (fp, cs3) ← lexFrac cs2
  let (ep, cs4) ← lexExp cs3
  some (⟨neg ++ ip ++ fp ++ ep⟩, cs4)

mutual

/-- Parse one JSON value after skipping leading whitespace. Fuel bounds the
nesting depth and is instantiated with the input length plus one. -/
def valueCore : Nat → List Char → Option (Json × List Char)
  | 0, _ => none
  | fuel + 1, cs =>
    match dropSpace cs with
    | [] => none
    | c :: rest =>
      if c = 'n' then
        (stripLit ['u', 'l', 'l'] rest).map fun r => (.jnull, r)
      else if c = 't' then
        (stripLit ['r', 'u', 'e'] rest).map fun r => (.jbool true, r)
      else if c = 'f' then
        (stripLit ['a', 'l', 's', 'e'] rest).map fun r => (.jbool false, r)
      else if c = '"' then
        (lexString rest.length rest).map fun p => (.jstr p.1, p.2)
      else if c = '[' then
        match dropSpace rest with
        | ']' :: r => some (.jarr [], r)
        | _ => (arrayTail fuel rest).map fun p => (.jarr p.1, p.2)
      else if c = lbrace then
        match dropSpace rest with
        | c2 :: r => if c2 = rbrace then some (.jobj [], r)
                     else (objectTail fuel rest).map fun p => (.jobj p.1, p.2)
        | [] => none
      else if c = '-' || decDigit c then
        (lexNumber (c :: rest)).map fun p => (.jnum p.1, p.2)
      else none

/-- Parse the comma-separated items of a non-empty array, consuming the
closing bracket. -/
def arrayTail : Nat → List Char → Option (List Json × List Char)
  | 0, _ => none
  | fuel + 1, cs => do
    let (v, r) ← valueCore fuel cs
    match dropSpace r with
    | ',' :: r2 => (arrayTail fuel r2).map fun p => (v :: p.1, p.2)
    | ']' :: r2 => some ([v], r2)
    | _ => none

/-- Parse the comma-separated members of a non-empty object, consuming the
closing brace. -/
def objectTail : Nat → List Char → Option (List (String × Json) × List Char)
  | 0, _ => none
  | fuel + 1, cs =>
    match dropSpace cs with
    | '"' :: r => do
      let (k, r1) ← lexString r.length r
      match dropSpace r1 with
      | ':' :: r2 => do
        let (v, r3) ← valueCore fuel r2
        match dropSpace r3 with
        | ',' :: r4 => (objectTail fuel r4).map fun p => ((k, v) :: p.1, p.2)
        | c4 :: r4 => if c4 = rbrace then some ([(k, v)], r4) else none
        | [] => none
      | _ => none
    | _ => none

end

/-- Parse a complete JSON document: one value, then only trailing
whitespace, as `serde_json::from_str` requires. -/
def jsonDocument (s : String) : Option Json := do
  let (v, r) ← valueCore (s.length + 1) s.data
  if (dropSpace r).isEmpty then some v else none

/-- serde deserialization of `String`: accepts a JSON string only. -/
def decodeString : Json → Except String String
  | .jstr s => .ok s
  | _ => .error "invalid type: expected a string"

/-- serde deserialization of `Option<String>`: `null` is `None`, a string
is `Some`, anything else is a type error. -/
def decodeOptString : Json → Except String (Option String)
  | .jnull => .ok none
  | .jstr s => .ok (some s)
  | _ => .error "invalid type: expected a string or null"

/-- serde deserialization of the unit-variant enum `UpdateRequirement` with
`rename_all = "kebab-case"`: exactly the three kebab-case literals are
accepted; any other string is an unknown-variant error, never a default. -/
def decodeUpdateRequirement : Json → Except String UpdateRequirement
  | .jstr s =>
    if s = "up-to-date" then .ok .UpToDate
    else if s = "semver-safe-update" then .ok .SemverSafeUpdate
    else if s = "update-possible" then .ok .UpdatePossible
    else .error "unknown variant of UpdateRequirement"
  | _ => .error "invalid type: expected a string for UpdateRequirement"

/-- serde serialization of `UpdateRequirement` with
`rename_all = "kebab-case"`. -/
def serializeUpdateRequirement : UpdateRequirement → Json
  | .UpToDate => .jstr "up-to-date"
  | .SemverSafeUpdate => .jstr "semver-safe-update"
  | .UpdatePossible => .jstr "update-possible"

/-- The `Display` impl for `UpdateRequirement` in the source. -/
def UpdateRequirement.display : UpdateRequirement → String
  | .UpToDate => "up-to-date"
  | .SemverSafeUpdate => "semver-safe-update"
  | .UpdatePossible => "update-possible"

/-- The `Display` impl for `IndicatedUpdateRequirement` in the source. -/
def IndicatedUpdateRequirement.display : IndicatedUpdateRequirement → String
  | .UpToDate => "up-to-date"
  | .UpdateRequired => "update-required"

/-- Partially-filled field set while visiting the entries of a
`PackageStatus` JSON object, as in serde's derived visitor: each field is
`none` until its key has been seen. For the optional `warning` field the
inner value is what the key's value decoded to. -/
structure PSFields where
  name : Option String := none
  version : Option String := none
  latest : Option String := none
  latest_status : Option UpdateRequirement := none
  description : Option String := none
  warning : Option (Option String) := none
deriving Repr, DecidableEq

/-- Visit one object entry for `PackageStatus`: a known key fills its field
(a second occurrence is a duplicate-field error), an unknown key is ignored,
as serde derives without `deny_unknown_fields`. The wire key for
`latest_status` is `latest-status` per the `rename` attribute. -/
def psStep (st : PSFields) (kv : String × Json) : Except String PSFields :=
  if kv.1 = "name" then
    match st.name with
    | some _ => .error "duplicate field name"
    | none => (decodeString kv.2).map fun s => { st with name := some s }
  else if kv.1 = "version" then
    match st.version with
    | some _ => .error "duplicate field version"
    | none => (decodeString kv.2).map fun s => { st with version := some s }
  else if kv.1 = "latest" then
    match st.latest with
    | some _ => .error "duplicate field latest"
    | none => (decodeString kv.2).map fun s => { st with latest := some s }
  else if kv.1 = "latest-status" then
    match st.latest_status with
    | some _ => .error "duplicate field latest-status"
    | none => (decodeUpdateRequirement kv.2).map fun u => { st with latest_status := some u }
  else if kv.1 = "description" then
    match st.description with
    | some _ => .error "duplicate field description"
    | none => (decodeString kv.2).map fun s => { st with description := some s }
  else if kv.1 = "warning" then
    match st.warning with
    | some _ => .error "duplicate field warning"
    | none => (decodeOptString kv.2).map fun w => { st with warning := some w }
  else .ok st

/-- Visit all entries of a `PackageStatus` object in document order. -/
def psFold (st : PSFields) : List (String × Json) → Except String PSFields
  | [] => .ok st
  | kv :: rest =>
    match psStep st kv with
    | .ok st' => psFold st' rest
    | .error e => .error e

/-- serde deserialization of `PackageStatus`: requires an object; the five
non-optional fields must have been seen, the optional `warning` field
defaults to `None` when its key is missing. -/
def decodePackageStatus (j : Json) : Except String PackageStatus :=
  match j with
  | .jobj fields =>
    match psFold {} fields with
    | .error e => .error e
    | .ok st =>
      match st.name, st.version, st.latest, st.latest_status, st.description with
      | some n, some v, some l, some ls, some d =>
        .ok ⟨n, v, l, ls, d, st.warning.getD none⟩
      | _, _, _, _, _ => .error "missing field in PackageStatus"
  | _ => .error "invalid type: expected an object for PackageStatus"

/-- serde deserialization of `Vec<PackageStatus>`: a JSON array whose
elements all decode. -/
def decodePackageList (j : Json) : Except String (List PackageStatus) :=
  match j with
  | .jarr xs => xs.mapM decodePackageStatus
  | _ => .error "invalid type: expected an array"

/-- Visit one object entry for `ComposerOutdatedData`: only `locked` is
known; unknown keys are ignored. The state is the `locked` field, `none`
until seen. -/
def codStep (st : Option (List PackageStatus)) (kv : String × Json) :
    Except String (Option (List PackageStatus)) :=
  if kv.1 = "locked" then
    match st with
    | some _ => .error "duplicate field locked"
    | none => (decodePackageList kv.2).map some
  else .ok st

/-- Visit all entries of a `ComposerOutdatedData` object in document order. -/
def codFold (st : Option (List PackageStatus)) :
    List (String × Json) → Except String (Option (List PackageStatus))
  | [] => .ok st
  | kv :: rest =>
    match codStep st kv with
    | .ok st' => codFold st' rest
    | .error e => .error e

/-- serde deserialization of `ComposerOutdatedData`: an object with the
required `locked` field. -/
def decodeComposerOutdatedData (j : Json) : Except String ComposerOutdatedData :=
  match j with
  | .jobj fields =>
    match codFold none fields with
    | .error e => .error e
    | .ok (some l) => .ok ⟨l⟩
    | .ok none => .error "missing field locked"
  | _ => .error "invalid type: expected an object for ComposerOutdatedData"

/-- `serde_json::from_str::<ComposerOutdatedData>`: parse the text as a JSON
document, then deserialize. -/
def fromStr (s : String) : Except String ComposerOutdatedData :=
  match jsonDocument s with
  | none => .error "invalid JSON"
  | some j => decodeComposerOutdatedData j

/-- The observable behaviour of one completed child process: its exit
status (`success` is `ExitStatus::success()`) and its captured output
byte streams. -/
structure ProcessOutput where
  success : Bool
  stdout : List Nat
  stderr : List Nat
deriving Repr, DecidableEq

/-- `std::str::from_utf8` lifted into the crate's error type, as used with
the `?` operator in `outdated`. -/
def fromUtf8 (bs : List Nat) : Except Error String :=
  match utf8Decode bs with
  | some s => .ok s
  | none => .error .Utf8Error

/-- The diagnostics block of `outdated`, entered only on a failure exit
status: it logs the exit status (a pure side effect, not modelled), then
converts stdout with `from_utf8(...)?` for the debug log and, when stderr is
non-empty, stderr with `from_utf8(...)?` for the warning log. The `?`
operators make both conversions early returns on invalid UTF-8. -/
def diagnostics (output : ProcessOutput) : Except Error Unit :=
  if output.success then .ok ()
  else
    match fromUtf8 output.stdout with
    | .error e => .error e
    | .ok _stdout_text =>
      if output.stderr.isEmpty then .ok ()
      else
        match fromUtf8 output.stderr with
        | .error e => .error e
        | .ok _stderr_text => .ok ()

/-- The body of `outdated` after `cmd.output()` has produced `output`,
mirroring the source line by line: the diagnostics block on failure exit
(whose `from_utf8(...)?` calls propagate UTF-8 errors), the classification
of the exit status, the UTF-8 decode of stdout and the JSON decode. -/
def outdated (options : ComposerOutdatedOptions) (output : ProcessOutput) :
    Except Error (IndicatedUpdateRequirement × ComposerOutdatedData) :=
  let _args := buildArgs options
  match diagnostics output with
  | .error e => .error e
  | .ok () =>
    let update_requirement :=
      if output.success then IndicatedUpdateRequirement.UpToDate
      else IndicatedUpdateRequirement.UpdateRequired
    match fromUtf8 output.stdout with
    | .error e => .error e
    | .ok json_str =>
      match fromStr json_str with
      | .error e => .error (Error.SerdeJsonError e)
      | .ok data => .ok (update_requirement, data)

/-- Discriminant of an `UpdateRequirement` value: Rust's derived
`PartialOrd`/`Ord` compare enum values by declaration-order discriminant. -/
def UpdateRequirement.discriminant : UpdateRequirement → Nat
  | .UpToDate => 0
  | .SemverSafeUpdate => 1
  | .UpdatePossible => 2

/-- The derived `Ord::cmp` on `UpdateRequirement`: comparison of
discriminants. -/
def UpdateRequirement.cmp (a b : UpdateRequirement) : Ordering :=
  compare a.discriminant b.discriminant

/-- `Ord::max` from the Rust standard library on `UpdateRequirement`
(returns the second argument when equal). -/
def maxReq (a b : UpdateRequirement) : UpdateRequirement :=
  if UpdateRequirement.cmp b a = .lt then a else b

/-- Maximum of a list of classifications, as `Iterator::max` computes it on
a non-empty iterator: fold `Ord::max` from the first element. On the empty
list it returns the bottom element `UpToDate` (unused by the claims, which
require a non-empty report). -/
def worstList : List UpdateRequirement → UpdateRequirement
  | [] => .UpToDate
  | x :: xs => xs.foldl maxReq x

/-- The worst classification across a report, computed as the maximum over
the entries of `locked`. -/
def worstStatus (r : ComposerOutdatedData) : UpdateRequirement :=
  worstList (r.locked.map PackageStatus.latest_status)

end ComposerParser

namespace ComposerParser

/-- Helper for the argument-list theorem: folding the append of
`--ignore` pairs distributes over any accumulator. -/
theorem buildArgs_foldl_eq (l : List String) (acc : List String) :
    l.foldl (fun acc package_name => acc ++ ["--ignore", package_name]) acc
      = acc ++ l.flatMap (fun package_name => ["--ignore", package_name]) := by
  induction l generalizing acc with
  | nil => simp
  | cons x xs ih => simp [List.foldl_cons, ih, List.flatMap_cons, List.append_assoc]

end ComposerParser

namespace ComposerParser

/-- C4: For every `ComposerOutdatedOptions` value, the argument list built for
the subprocess is exactly the fixed prefix
`outdated -f json --no-plugins --strict --locked -m` followed by one
`--ignore <name>` pair per entry of `ignored_packages`, in order, with no
deduplication; an empty list yields only the fixed prefix. -/
theorem buildArgs_spec (options : ComposerOutdatedOptions) :
    buildArgs options
      = ["outdated", "-f", "json", "--no-plugins", "--strict", "--locked", "-m"]
        ++ options.ignored_packages.flatMap (fun package_name => ["--ignore", package_name]) := by
  unfold buildArgs
  exact buildArgs_foldl_eq options.ignored_packages _

/-- C2: For every invocation of `outdated` that returns successfully, the
returned overall outcome is a function of the child-process exit status
alone: exit success yields `UpToDate`, exit failure yields `UpdateRequired`,
independent of the decoded report. -/
theorem outdated_outcome_from_exit_status (options : ComposerOutdatedOptions)
    (po : ProcessOutput) (r : IndicatedUpdateRequirement) (d : ComposerOutdatedData)
    (h : outdated options po = .ok (r, d)) :
    r = (if po.success then IndicatedUpdateRequirement.UpToDate
         else IndicatedUpdateRequirement.UpdateRequired) := by
  unfold outdated at h
  dsimp only at h
  split at h
  · exact absurd h (by simp)
  · split at h
    · exact absurd h (by simp)
    · split at h
      · exact absurd h (by simp)
      · simp only [Except.ok.injEq, Prod.mk.injEq] at h
        exact h.1.symm

/-- C2 witness: a failure exit with a decodable empty `locked` list returns
successfully and is classified `UpdateRequired`. -/
theorem outdated_outcome_from_exit_status_witness :
    IndicatedUpdateRequirement.UpdateRequired
      = (if (ProcessOutput.mk false (asciiBytes "\x7b\"locked\":[]\x7d") []).success
         then IndicatedUpdateRequirement.UpToDate
         else IndicatedUpdateRequirement.UpdateRequired) :=
  outdated_outcome_from_exit_status ⟨[]⟩
    ⟨false, asciiBytes "\x7b\"locked\":[]\x7d", []⟩
    .UpdateRequired ⟨[]⟩ (by decide)

/-- C5: If the exit status is success and the captured stdout bytes are not
valid UTF-8, `outdated` fails with `Utf8Error` (before any JSON decoding:
the error is a UTF-8 error, not a JSON one) and returns no report. -/
theorem outdated_invalid_utf8_stdout (options : ComposerOutdatedOptions)
    (po : ProcessOutput) (h1 : po.success = true)
    (h2 : utf8Decode po.stdout = none) :
    outdated options po = .error .Utf8Error := by
  unfold outdated diagnostics fromUtf8
  rw [h1, h2]
  simp

/-- C5 witness: success exit with stdout `[0xFF]` (invalid UTF-8) yields
`Utf8Error`. -/
theorem outdated_invalid_utf8_stdout_witness :
    outdated ⟨[]⟩ ⟨true, [0xFF], []⟩ = .error .Utf8Error :=
  outdated_invalid_utf8_stdout ⟨[]⟩ ⟨true, [0xFF], []⟩ rfl (by decide)

/-- C1 counterexample: diagnostic emission is not best-effort. With a
failure exit, a decodable stdout and a non-UTF-8 stderr, the call returns
`Err(Utf8Error)` from the diagnostics block; the identical call with an
empty stderr succeeds, so the abort comes from the stderr diagnostic
itself. -/
theorem outdated_diagnostics_abort_counterexample :
    outdated ⟨[]⟩ ⟨false, asciiBytes "\x7b\"locked\":[]\x7d", [0xFF]⟩
      = .error .Utf8Error
    ∧ outdated ⟨[]⟩ ⟨false, asciiBytes "\x7b\"locked\":[]\x7d", []⟩
      = .ok (.UpdateRequired, ⟨[]⟩) := by
  constructor
  · decide
  · decide

/-- C1 amended: the diagnostics block propagates UTF-8 conversion failures
via `?`: on a failure exit, if stdout is not valid UTF-8, or stderr is
non-empty and not valid UTF-8, the call returns `Utf8Error` instead of
skipping the diagnostic and continuing. -/
theorem outdated_diagnostics_propagate_utf8 (options : ComposerOutdatedOptions)
    (po : ProcessOutput) (h1 : po.success = false)
    (h2 : utf8Decode po.stdout = none
          ∨ (po.stderr ≠ [] ∧ utf8Decode po.stderr = none)) :
    outdated options po = .error .Utf8Error := by
  unfold outdated diagnostics fromUtf8
  rw [h1]
  rcases h2 with h2 | ⟨h2a, h2b⟩
  · rw [h2]
    simp
  · rw [h2b]
    cases hso : utf8Decode po.stdout <;>
      simp [List.isEmpty_iff, h2a]

/-- C1 amended witness: failure exit, empty stdout, stderr `[0xFF]` yields
`Utf8Error`. -/
theorem outdated_diagnostics_propagate_utf8_witness :
    outdated ⟨[]⟩ ⟨false, [], [0xFF]⟩ = .error .Utf8Error :=
  outdated_diagnostics_propagate_utf8 ⟨[]⟩ ⟨false, [], [0xFF]⟩ rfl
    (Or.inr ⟨by decide, by decide⟩)

/-- Helper: an unrecognised status string falls through all three variant
branches of the decoder. -/
theorem decodeUpdateRequirement_fallthrough (s : String)
    (h1 : s ≠ "up-to-date") (h2 : s ≠ "semver-safe-update")
    (h3 : s ≠ "update-possible") :
    decodeUpdateRequirement (.jstr s)
      = .error "unknown variant of UpdateRequirement" := by
  simp [decodeUpdateRequirement, h1, h2, h3]

/-- C3: Decoding a `latest-status` string that is none of the three
recognised kebab-case literals yields a decode error, never a default
variant. -/
theorem decodeUpdateRequirement_unknown_variant (s : String)
    (h1 : s ≠ "up-to-date") (h2 : s ≠ "semver-safe-update")
    (h3 : s ≠ "update-possible") :
    decodeUpdateRequirement (.jstr s)
      = .error "unknown variant of UpdateRequirement" :=
  decodeUpdateRequirement_fallthrough s h1 h2 h3

/-- C3 witness: the unrecognised literal `not-a-real-status` is a decode
error. -/
theorem decodeUpdateRequirement_unknown_variant_witness :
    decodeUpdateRequirement (.jstr "not-a-real-status")
      = .error "unknown variant of UpdateRequirement" :=
  decodeUpdateRequirement_unknown_variant "not-a-real-status"
    (by decide) (by decide) (by decide)

/-- C6: decode/encode round-trips on the update-classification field:
whenever a string decodes to an `UpdateRequirement`, re-encoding that value
yields the same kebab-case literal. -/
theorem updateRequirement_roundtrip (s : String) (u : UpdateRequirement)
    (h : decodeUpdateRequirement (.jstr s) = .ok u) :
    serializeUpdateRequirement u = .jstr s := by
  by_cases h1 : s = "up-to-date"
  · subst h1
    simp [decodeUpdateRequirement] at h
    subst h
    rfl
  · by_cases h2 : s = "semver-safe-update"
    · subst h2
      simp [decodeUpdateRequirement] at h
      subst h
      rfl
    · by_cases h3 : s = "update-possible"
      · subst h3
        simp [decodeUpdateRequirement] at h
        subst h
        rfl
      · rw [decodeUpdateRequirement_fallthrough s h1 h2 h3] at h
        exact absurd h (by simp)

/-- C6 witness: the round-trip at `semver-safe-update`. -/
theorem updateRequirement_roundtrip_witness :
    serializeUpdateRequirement .SemverSafeUpdate = .jstr "semver-safe-update" :=
  updateRequirement_roundtrip "semver-safe-update" .SemverSafeUpdate (by decide)

end ComposerParser

namespace ComposerParser

/-- `maxReq` returns one of its two arguments. -/
theorem maxReq_eq_or (a b : UpdateRequirement) : maxReq a b = a ∨ maxReq a b = b := by
  unfold maxReq
  split
  · exact Or.inl rfl
  · exact Or.inr rfl

/-- The first argument never compares above the maximum. -/
theorem le_maxReq_left (a b : UpdateRequirement) :
    UpdateRequirement.cmp a (maxReq a b) ≠ .gt := by
  cases a <;> cases b <;> decide

/-- The second argument never compares above the maximum. -/
theorem le_maxReq_right (a b : UpdateRequirement) :
    UpdateRequirement.cmp b (maxReq a b) ≠ .gt := by
  cases a <;> cases b <;> decide

/-- Transitivity of the non-strict comparison on `UpdateRequirement`. -/
theorem cmp_le_trans (a b c : UpdateRequirement)
    (h1 : UpdateRequirement.cmp a b ≠ .gt) (h2 : UpdateRequirement.cmp b c ≠ .gt) :
    UpdateRequirement.cmp a c ≠ .gt := by
  revert h1 h2
  cases a <;> cases b <;> cases c <;> decide

/-- Folding `maxReq` yields the initial element or a list element. -/
theorem foldl_maxReq_mem (xs : List UpdateRequirement) (a : UpdateRequirement) :
    xs.foldl maxReq a = a ∨ xs.foldl maxReq a ∈ xs := by
  induction xs generalizing a with
  | nil => exact Or.inl rfl
  | cons x xs ih =>
    rw [List.foldl_cons]
    rcases ih (maxReq a x) with h | h
    · rcases maxReq_eq_or a x with h2 | h2
      · exact Or.inl (h.trans h2)
      · exact Or.inr (by rw [h, h2]; exact List.mem_cons_self _ _)
    · exact Or.inr (List.mem_cons_of_mem _ h)

/-- The initial element never compares above the fold of `maxReq`. -/
theorem le_foldl_maxReq_init (xs : List UpdateRequirement) (a : UpdateRequirement) :
    UpdateRequirement.cmp a (xs.foldl maxReq a) ≠ .gt := by
  induction xs generalizing a with
  | nil => cases a <;> decide
  | cons x xs ih =>
    rw [List.foldl_cons]
    exact cmp_le_trans _ _ _ (le_maxReq_left a x) (ih (maxReq a x))

/-- No list element compares above the fold of `maxReq`. -/
theorem le_foldl_maxReq_mem (xs : List UpdateRequirement) (a y : UpdateRequirement)
    (hy : y ∈ xs) : UpdateRequirement.cmp y (xs.foldl maxReq a) ≠ .gt := by
  induction xs generalizing a with
  | nil => cases hy
  | cons x xs ih =>
    rw [List.foldl_cons]
    rcases List.mem_cons.mp hy with h | h
    · subst h
      exact cmp_le_trans _ _ _ (le_maxReq_right a y) (le_foldl_maxReq_init xs (maxReq a y))
    · exact ih _ h

/-- The maximum of a non-empty list is an element of it. -/
theorem worstList_mem (l : List UpdateRequirement) (h : l ≠ []) :
    worstList l ∈ l := by
  cases l with
  | nil => exact absurd rfl h
  | cons x xs =>
    simp only [worstList]
    rcases foldl_maxReq_mem xs x with h2 | h2
    · rw [h2]; exact List.mem_cons_self _ _
    · exact List.mem_cons_of_mem _ h2

/-- No element of a list compares above its maximum. -/
theorem worstList_ge (l : List UpdateRequirement) (y : UpdateRequirement)
    (hy : y ∈ l) : UpdateRequirement.cmp y (worstList l) ≠ .gt := by
  cases l with
  | nil => cases hy
  | cons x xs =>
    simp only [worstList]
    rcases List.mem_cons.mp hy with h | h
    · subst h
      exact le_foldl_maxReq_init xs y
    · exact le_foldl_maxReq_mem xs x y h

end ComposerParser

namespace ComposerParser

/-- C7: the derived comparison satisfies
`UpToDate < SemverSafeUpdate < UpdatePossible`, and for every report with a
non-empty `locked` list the worst classification is computed as the maximum
over its entries: it is the classification of some entry and no entry's
classification compares above it. -/
theorem updateRequirement_order_worst (r : ComposerOutdatedData)
    (h : r.locked ≠ []) :
    (UpdateRequirement.cmp .UpToDate .SemverSafeUpdate = .lt
     ∧ UpdateRequirement.cmp .SemverSafeUpdate .UpdatePossible = .lt
     ∧ UpdateRequirement.cmp .UpToDate .UpdatePossible = .lt)
    ∧ worstStatus r ∈ r.locked.map PackageStatus.latest_status
    ∧ ∀ p ∈ r.locked,
        UpdateRequirement.cmp p.latest_status (worstStatus r) ≠ .gt := by
  refine ⟨⟨by decide, by decide, by decide⟩, ?_, ?_⟩
  · exact worstList_mem _ (by simpa using h)
  · intro p hp
    exact worstList_ge _ _ (List.mem_map_of_mem _ hp)

/-- C7 witness: the worst status of a concrete two-entry report. -/
theorem updateRequirement_order_worst_witness :
    worstStatus ⟨[⟨"a", "1", "2", .UpdatePossible, "", none⟩,
                  ⟨"b", "1", "1", .UpToDate, "", none⟩]⟩
      ∈ (ComposerOutdatedData.mk
          [⟨"a", "1", "2", .UpdatePossible, "", none⟩,
           ⟨"b", "1", "1", .UpToDate, "", none⟩]).locked.map
          PackageStatus.latest_status :=
  (updateRequirement_order_worst
    ⟨[⟨"a", "1", "2", .UpdatePossible, "", none⟩,
      ⟨"b", "1", "1", .UpToDate, "", none⟩]⟩ (by decide)).2.1

/-- C8: a package object without a `warning` key decodes with `warning`
absent (`none`), a package object with `"warning": ""` decodes with
`warning` present-but-empty (`some ""`), and the two results are
distinguishable. -/
theorem packageStatus_warning_optional (n v l d : String) :
    decodePackageStatus (.jobj [("name", .jstr n), ("version", .jstr v),
        ("latest", .jstr l), ("latest-status", .jstr "up-to-date"),
        ("description", .jstr d)])
      = .ok ⟨n, v, l, .UpToDate, d, none⟩
    ∧ decodePackageStatus (.jobj [("name", .jstr n), ("version", .jstr v),
        ("latest", .jstr l), ("latest-status", .jstr "up-to-date"),
        ("description", .jstr d), ("warning", .jstr "")])
      = .ok ⟨n, v, l, .UpToDate, d, some ""⟩
    ∧ (none : Option String) ≠ some "" := by
  refine ⟨rfl, rfl, by simp⟩

/-- C9 counterexample: decoding does not enforce a non-empty `name`. A full
subprocess-output document whose package has `"name": ""` decodes
successfully, so not every decoded `PackageStatus` has a non-empty name. -/
theorem packageStatus_empty_name_counterexample :
    ¬ ∀ (d : ComposerOutdatedData),
        fromStr "\x7b\"locked\":[\x7b\"name\":\"\",\"version\":\"1.0.0\",\"latest\":\"1.0.0\",\"latest-status\":\"up-to-date\",\"description\":\"\"\x7d]\x7d"
          = .ok d → ∀ p ∈ d.locked, p.name ≠ "" := by
  intro h
  exact h ⟨[⟨"", "1.0.0", "1.0.0", .UpToDate, "", none⟩]⟩ (by decide)
    ⟨"", "1.0.0", "1.0.0", .UpToDate, "", none⟩ (by decide) rfl

/-- C9 amended: the decoder accepts any string as `name`, including the
empty string, passing it through unvalidated; non-emptiness is a property
of the external tool's output, not enforced by decoding. -/
theorem packageStatus_name_unvalidated (s v l d : String) :
    decodePackageStatus (.jobj [("name", .jstr s), ("version", .jstr v),
        ("latest", .jstr l), ("latest-status", .jstr "up-to-date"),
        ("description", .jstr d)])
      = .ok ⟨s, v, l, .UpToDate, d, none⟩ := rfl

end ComposerParser

namespace ComposerParser

/-- Visiting the concatenation of two entry lists for `PackageStatus`
visits the first then the second. -/
theorem psFold_append (st : PSFields) (as bs : List (String × Json)) :
    psFold st (as ++ bs)
      = (match psFold st as with
         | .ok st' => psFold st' bs
         | .error e => .error e) := by
  induction as generalizing st with
  | nil => rfl
  | cons kv as ih =>
    rw [List.cons_append]
    simp only [psFold]
    cases psStep st kv with
    | ok st' => exact ih st'
    | error e => rfl

/-- An entry with an unknown key leaves the `PackageStatus` visitor state
unchanged. -/
theorem psStep_unknown (st : PSFields) (k : String) (j : Json)
    (h1 : k ≠ "name") (h2 : k ≠ "version") (h3 : k ≠ "latest")
    (h4 : k ≠ "latest-status") (h5 : k ≠ "description") (h6 : k ≠ "warning") :
    psStep st (k, j) = .ok st := by
  simp [psStep, h1, h2, h3, h4, h5, h6]

/-- Inserting an unknown-key entry anywhere in a `PackageStatus` object
leaves the visitor result unchanged. -/
theorem psFold_insert_unknown (st : PSFields) (es1 es2 : List (String × Json))
    (k : String) (j : Json)
    (h1 : k ≠ "name") (h2 : k ≠ "version") (h3 : k ≠ "latest")
    (h4 : k ≠ "latest-status") (h5 : k ≠ "description") (h6 : k ≠ "warning") :
    psFold st (es1 ++ (k, j) :: es2) = psFold st (es1 ++ es2) := by
  rw [psFold_append, psFold_append]
  cases psFold st es1 with
  | ok st' =>
    simp only [psFold, psStep_unknown st' k j h1 h2 h3 h4 h5 h6]
  | error e => rfl

/-- Visiting the concatenation of two entry lists for
`ComposerOutdatedData` visits the first then the second. -/
theorem codFold_append (st : Option (List PackageStatus))
    (as bs : List (String × Json)) :
    codFold st (as ++ bs)
      = (match codFold st as with
         | .ok st' => codFold st' bs
         | .error e => .error e) := by
  induction as generalizing st with
  | nil => rfl
  | cons kv as ih =>
    rw [List.cons_append]
    simp only [codFold]
    cases codStep st kv with
    | ok st' => exact ih st'
    | error e => rfl

/-- Inserting an unknown-key entry anywhere in a `ComposerOutdatedData`
object leaves the visitor result unchanged. -/
theorem codFold_insert_unknown (st : Option (List PackageStatus))
    (es1 es2 : List (String × Json)) (k : String) (j : Json)
    (h1 : k ≠ "locked") :
    codFold st (es1 ++ (k, j) :: es2) = codFold st (es1 ++ es2) := by
  rw [codFold_append, codFold_append]
  cases codFold st es1 with
  | ok st' =>
    simp [codFold, codStep, h1]
  | error e => rfl

end ComposerParser

namespace ComposerParser

/-- C10: decoding tolerates unrecognised object fields: inserting an entry
with an unknown key at any position of the top-level object, or of a
package object, leaves a successful decode unchanged. -/
theorem decode_ignores_unknown_fields :
    (∀ (es1 es2 : List (String × Json)) (k : String) (j : Json)
        (d : ComposerOutdatedData), k ≠ "locked" →
        decodeComposerOutdatedData (.jobj (es1 ++ es2)) = .ok d →
        decodeComposerOutdatedData (.jobj (es1 ++ (k, j) :: es2)) = .ok d)
    ∧ (∀ (es1 es2 : List (String × Json)) (k : String) (j : Json)
        (p : PackageStatus),
        k ≠ "name" → k ≠ "version" → k ≠ "latest" → k ≠ "latest-status" →
        k ≠ "description" → k ≠ "warning" →
        decodePackageStatus (.jobj (es1 ++ es2)) = .ok p →
        decodePackageStatus (.jobj (es1 ++ (k, j) :: es2)) = .ok p) := by
  constructor
  · intro es1 es2 k j d hk h
    simp only [decodeComposerOutdatedData] at h ⊢
    rw [codFold_insert_unknown none es1 es2 k j hk]
    exact h
  · intro es1 es2 k j p h1 h2 h3 h4 h5 h6 h
    simp only [decodePackageStatus] at h ⊢
    rw [psFold_insert_unknown {} es1 es2 k j h1 h2 h3 h4 h5 h6]
    exact h

/-- C10 witness: an unknown `extra` key ahead of `locked` is ignored. -/
theorem decode_ignores_unknown_fields_witness :
    decodeComposerOutdatedData (.jobj [("extra", .jnull), ("locked", .jarr [])])
      = .ok ⟨[]⟩ :=
  decode_ignores_unknown_fields.1 [] [("locked", .jarr [])] "extra" .jnull
    ⟨[]⟩ (by decide) (by decide)

end ComposerParser
